import Mathlib

/-!
Verification development for the SMQTK slice consisting of:
  * bin/scripts/train_itq.py        (ITQ-training pipeline entry script)
  * smqtk/representation/classification_element/__init__.py
  * smqtk/utils/pytorch_metrics.py

The Python code is shallowly embedded below.  Parts of the repository that
the script calls but that are not among the given source files — namely
smqtk.utils.parallel.parallel_map and ItqFunctor.fit / the hash-functor
encode operation — are modelled from the specification; each such
definition carries a doc comment starting with the words Modelled from the
spec.
-/

namespace SMQTK

/-! ## Data model for the training pipeline

Identifiers are strings: the uuids list file yields stripped lines (str),
and the spec requires identifiers to round-trip through their string
representation.  Descriptor vectors stay an abstract type parameter `Vec`.
-/

/-- A descriptor index (the Descriptor Source): enumeration of its keys
plus single-item fetch.  `get_descriptor` returning `none` models the
Python method raising `KeyError`/`LookupError` for an unknown identifier. -/
structure DescriptorIndex (Vec : Type) where
  keys : List String
  get_descriptor : String → Option Vec

/-- Embedding of the `"parallel"` sub-dictionary of `default_config`. -/
structure ParallelConfig where
  index_load_cores : Nat
  use_multiprocessing : Bool
  deriving Repr, DecidableEq

/-- Embedding of the configuration dictionary consumed by `main` in
train_itq.py.  The `itq_config` and `descriptor_index` plugin
sub-configurations are not needed by any claim: the functor and index they
construct enter the embedding directly as values. -/
structure TrainItqConfig where
  uuids_list_filepath : Option String
  parallel : ParallelConfig
  deriving Repr, DecidableEq

/-- Embedding of `default_config()` from train_itq.py (the
`uuids_list_filepath` and `parallel` entries; see `TrainItqConfig`). -/
def default_config : TrainItqConfig :=
  { uuids_list_filepath := none
  , parallel := { index_load_cores := 2, use_multiprocessing := true } }

/-- The file system visible to `os.path.isfile` and `open`: a partial map
from paths to file contents, a file's content being its list of lines. -/
def FileSystem : Type := String → Option (List String)

/-- Python truthiness of the `uuids_list_filepath` configuration value:
`None` and the empty string are falsy. -/
def pyTruthyStr : Option String → Bool
  | none => false
  | some s => !s.isEmpty

/-- Embedding of Python `str.strip()` with no arguments: remove leading
and trailing whitespace characters. -/
def pyStrip (s : String) : String :=
  String.mk (((s.toList.dropWhile Char.isWhitespace).reverse.dropWhile
    Char.isWhitespace).reverse)

/-- The identifier sequence chosen by `main` (train_itq.py lines 66-77):
if `uuids_list_filepath` is truthy and `os.path.isfile` holds, the
generator yields `l.strip()` for each line `l` of the file; otherwise it
yields the keys of the descriptor index. -/
def uuidsList (config : TrainItqConfig) (fs : FileSystem)
    (descriptor_index : DescriptorIndex Vec) : List String :=
  match config.uuids_list_filepath with
  | some p =>
    if !p.isEmpty then
      match fs p with
      | some fileLines => fileLines.map pyStrip
      | none => descriptor_index.keys
    else descriptor_index.keys
  | none => descriptor_index.keys

/-- The stages of the training process distinguished by the spec's
process-level error contract. -/
inductive Stage where
  | extraction
  | fitting
  | persistence
  deriving Repr, DecidableEq

/-- Fatal errors of the pipeline, tagged with enough structure to recover
the failing stage. -/
inductive PipelineError where
  | lookupError (ident : String)
  | fittingError (msg : String)
  | persistenceError (msg : String)
  deriving Repr, DecidableEq

/-- The stage at which a given fatal error arises. -/
def stageOf : PipelineError → Stage
  | .lookupError _ => .extraction
  | .fittingError _ => .fitting
  | .persistenceError _ => .persistence

/-- Name of a stage as it appears in a diagnostic message. -/
def stageName : Stage → String
  | .extraction => "extraction"
  | .fitting => "fitting"
  | .persistence => "persistence"

/-- Detail part of a diagnostic message. -/
def errDetail : PipelineError → String
  | .lookupError ident => "unresolvable identifier " ++ ident
  | .fittingError msg => msg
  | .persistenceError msg => msg

/-- Diagnostic message emitted for a fatal error; it names the failing
stage followed by the detail. -/
def diagnostic (e : PipelineError) : String :=
  stageName (stageOf e) ++ ": " ++ errDetail e

/-- Process exit status derived from the pipeline outcome: 0 on success,
1 (non-zero) when a fatal error propagated out of `main`. -/
def exitCode {M : Type} : Except PipelineError M → Nat
  | .ok _ => 0
  | .error _ => 1

/-- Modelled from the spec: `smqtk.utils.parallel.parallel_map` applied to
`extract_element` is not among the given source files; per the spec each
worker performs one single-item fetch per identifier and any single fetch
failure aborts the whole pipeline fail-fast, handing no partial corpus
downstream.  The first component is the trace of identifiers actually
passed to `get_descriptor` (in order); the second is the assembled corpus
or the aborting error. -/
def extractAll (descriptor_index : DescriptorIndex Vec) :
    List String → List String × Except PipelineError (List Vec)
  | [] => ([], .ok [])
  | ident :: rest =>
    match descriptor_index.get_descriptor ident with
    | none => ([ident], .error (.lookupError ident))
    | some v =>
      let r := extractAll descriptor_index rest
      (ident :: r.1, r.2.map (fun c => v :: c))

/-- Observable outcome of one run of the training process:
how many times the fitting engine was invoked, which models were
persisted, and the process result. -/
structure TrainResult (M : Type) where
  fitCalls : Nat
  persisted : List M
  result : Except PipelineError M

/-- Modelled from the spec: the end-to-end training process of
train_itq.py's `main`.  `ItqFunctor.fit` (which also persists the model on
success) is not among the given source files, so fitting and persistence
enter as the abstract deterministic operations `fitF` and `persistF`; per
the spec, extraction failures abort before any fitting work begins, and
on success the fitted model is persisted and the process exits
successfully. -/
def runTrain {Vec M : Type} (fitF : List Vec → Except String M)
    (persistF : M → Except String Unit) (config : TrainItqConfig)
    (fs : FileSystem) (descriptor_index : DescriptorIndex Vec) :
    TrainResult M :=
  let ids := uuidsList config fs descriptor_index
  match (extractAll descriptor_index ids).2 with
  | .error e => { fitCalls := 0, persisted := [], result := .error e }
  | .ok corpus =>
    match fitF corpus with
    | .error msg =>
      { fitCalls := 1, persisted := [], result := .error (.fittingError msg) }
    | .ok m =>
      match persistF m with
      | .error msg =>
        { fitCalls := 1, persisted := []
        , result := .error (.persistenceError msg) }
      | .ok _ => { fitCalls := 1, persisted := [m], result := .ok m }

/-- The arguments `main` passes to `parallel.parallel_map`
(train_itq.py lines 82-85): the configured core count and
multiprocessing flag, read at lines 51-52, and nothing else. -/
structure ParallelMapArgs where
  cores : Nat
  use_multiprocessing : Bool
  deriving Repr, DecidableEq

/-- Embedding of the data flow from the configuration dictionary into the
`parallel_map` call inside `main`. -/
def mainParallelMapArgs (config : TrainItqConfig) : ParallelMapArgs :=
  { cores := config.parallel.index_load_cores
  , use_multiprocessing := config.parallel.use_multiprocessing }

/-! ## ITQ fitting engine and hash functor

`ItqFunctor.fit` and the encode operation are not among the given source
files; they are modelled from the spec's §4.2/§4.3 algorithm.  The dense
linear-algebra kernels (mean, PCA, matrix product, sign binarization,
singular-value-decomposition step of the Procrustes update) are
deterministic batch computations; they enter the model as the fields of a
`LinAlgOps` record so that theorems quantify over every such kernel.  The
random initialization of the rotation is the one place randomness enters:
with a seed it is a pure function of the seed, without one it consumes
ambient entropy. -/

/-- Modelled from the spec: an immutable fitted ITQ model — mean vector,
projection matrix, rotation matrix and bit length. -/
structure ItqModel (Vec Mat : Type) where
  mean : Vec
  proj : Mat
  rot : Mat
  bit_length : Nat
  deriving Repr, DecidableEq

/-- Modelled from the spec: the deterministic linear-algebra kernels the
fitting engine and the hash functor are built from. -/
structure LinAlgOps (Vec Mat : Type) where
  meanVec : List Vec → Vec
  center : List Vec → Vec → List Vec
  pca : List Vec → Nat → Mat
  project : List Vec → Mat → Mat
  matMul : Mat → Mat → Mat
  signMat : Mat → Mat
  transposeMul : Mat → Mat → Mat
  svdProcrustes : Mat → Mat
  seededOrtho : Nat → Nat → Mat
  entropyOrtho : (Nat → Nat) → Nat → Mat
  subVec : Vec → Vec → Vec
  vecMatMul : Vec → Mat → Vec
  signBits : Vec → List Bool

/-- Modelled from the spec: the alternating-minimization loop of §4.2
step 4 — binarize `B = sign(V*R)`, then update `R` from the
singular-value decomposition of `Vt*B`. -/
def itqRotationLoop (ops : LinAlgOps Vec Mat) (V : Mat) :
    Nat → Mat → Mat
  | 0, R => R
  | T + 1, R =>
    let B := ops.signMat (ops.matMul V R)
    itqRotationLoop ops V T (ops.svdProcrustes (ops.transposeMul V B))

/-- Modelled from the spec: `fit(corpus, k, T, random_seed)` of §4.2.
`entropy` is the ambient entropy consumed only when no seed is given. -/
def fit (ops : LinAlgOps Vec Mat) (entropy : Nat → Nat)
    (corpus : List Vec) (k T : Nat) (random_seed : Option Nat) :
    ItqModel Vec Mat :=
  let mu := ops.meanVec corpus
  let centered := ops.center corpus mu
  let P := ops.pca centered k
  let V := ops.project centered P
  let R0 :=
    match random_seed with
    | some s => ops.seededOrtho s k
    | none => ops.entropyOrtho entropy k
  { mean := mu, proj := P, rot := itqRotationLoop ops V T R0
  , bit_length := k }

/-- Modelled from the spec: the hash functor's pure encode operation of
§4.3, `sign((vector - mean) * P * R)`. -/
def encode (ops : LinAlgOps Vec Mat) (v : Vec) (m : ItqModel Vec Mat) :
    List Bool :=
  ops.signBits (ops.vecMatMul (ops.subVec v m.mean) (ops.matMul m.proj m.rot))

end SMQTK

/-! ## ClassificationElement

Embedding of smqtk/representation/classification_element/__init__.py.
An element carries its `type_name` and `uuid`; the abstract
`get_classification` either returns a label-to-confidence map or raises
`NoClassificationError`, modelled as an `Option` over an arbitrary map
type `M` whose equality stands for Python dict equality. -/

namespace Classification

/-- A value of the abstract `get_classification` behaviour: `none` models
`NoClassificationError` being raised, `some m` a returned map. -/
structure ClassificationElement (U M : Type) where
  type_name : String
  uuid : U
  classification : Option M

/-- Embedding of `ClassificationElement.__eq__` restricted to two
elements: `a` and `b` each evaluate `get_classification`, mapping
`NoClassificationError` to `None`, and the results are compared with
Python `==` (value equality, with `None == None` true). -/
def ceEqElem {U V M : Type} [DecidableEq M] (a : ClassificationElement U M)
    (b : ClassificationElement V M) : Bool :=
  decide (a.classification = b.classification)

/-- An arbitrary Python value handed to `__eq__`: either a
`ClassificationElement` or anything else. -/
inductive PyValue (U M : Type) where
  | elem : ClassificationElement U M → PyValue U M
  | nonElement : PyValue U M

/-- Embedding of `ClassificationElement.__eq__`: the `isinstance` test
sends every non-`ClassificationElement` argument to `False`. -/
def ceEq {U M : Type} [DecidableEq M] (a : ClassificationElement U M) :
    PyValue U M → Bool
  | .elem b => ceEqElem a b
  | .nonElement => false

/-- Embedding of `ClassificationElement.__ne__`: `not (self == other)`. -/
def ceNe {U M : Type} [DecidableEq M] (a : ClassificationElement U M)
    (other : PyValue U M) : Bool :=
  !(ceEq a other)

/-- Embedding of `ClassificationElement.__hash__`:
`hash((self.type_name, self.uuid))`.  The Python `hash` builtin on pairs
enters as the abstract function `h`. -/
def ceHash {U M : Type} (h : String × U → Int)
    (e : ClassificationElement U M) : Int :=
  h (e.type_name, e.uuid)

end Classification

/-! ## pytorch_metrics

Embedding of smqtk/utils/pytorch_metrics.py.  Equal-shaped tensors along
the reduced dimension are modelled as functions `Fin n → ℚ` (exact
arithmetic in place of floating point); `.sum(dim)` is the finite sum and
`.norm(p=2)` is the square root of the sum of squares, the square root
entering as an abstract function `sqrt` since only its argument matters
for the claims. -/

namespace PytorchMetrics

/-- Embedding of `L2_dis(t1, t2, dim)`:
`(t1.float() - t2.float()).norm(p=2, dim=dim)`. -/
def L2_dis (sqrt : ℚ → ℚ) {n : Nat} (t1 t2 : Fin n → ℚ) : ℚ :=
  sqrt (∑ i, (t1 i - t2 i) ^ 2)

/-- Embedding of `his_intersection_dis(t1, t2, dim)`:
`1.0 - ((t1 + t2) - torch.abs(t1 - t2)).sum(dim=dim) * 0.5`. -/
def his_intersection_dis {n : Nat} (t1 t2 : Fin n → ℚ) : ℚ :=
  1 - (∑ i, ((t1 i + t2 i) - |t1 i - t2 i|)) * (1 / 2)

end PytorchMetrics

namespace SMQTK

/-! ## Helper lemmas about the extraction pipeline -/

/-- On success, extraction called `get_descriptor` once per identifier in
order, every fetch succeeded, and the corpus is exactly the fetched
values in identifier order. -/
theorem extractAll_ok {Vec : Type} (idx : DescriptorIndex Vec)
    (ids : List String) (corpus : List Vec)
    (h : (extractAll idx ids).2 = .ok corpus) :
    (extractAll idx ids).1 = ids ∧
      corpus = ids.filterMap idx.get_descriptor ∧
      ∀ i ∈ ids, (idx.get_descriptor i).isSome := by
  induction ids generalizing corpus with
  | nil =>
    simp only [extractAll] at h
    cases h
    simp [extractAll]
  | cons ident rest ih =>
    simp only [extractAll] at h ⊢
    cases hget : idx.get_descriptor ident with
    | none => simp [hget] at h
    | some v =>
      simp only [hget] at h ⊢
      cases hrest : (extractAll idx rest).2 with
      | error e => simp [hrest, Except.map] at h
      | ok c =>
        simp only [hrest, Except.map] at h
        cases h
        obtain ⟨h1, h2, h3⟩ := ih c hrest
        refine ⟨by simp [h1], by simp [List.filterMap, hget, ← h2], ?_⟩
        intro i hi
        rcases List.mem_cons.mp hi with hi | hi
        · rw [hi, hget]; simp
        · exact h3 i hi

/-- If extraction fails, the error is a lookup error for an identifier of
the input sequence whose fetch fails. -/
theorem extractAll_error {Vec : Type} (idx : DescriptorIndex Vec)
    (ids : List String) (e : PipelineError)
    (h : (extractAll idx ids).2 = .error e) :
    ∃ bad ∈ ids, e = .lookupError bad ∧ idx.get_descriptor bad = none := by
  induction ids with
  | nil => simp [extractAll] at h
  | cons ident rest ih =>
    simp only [extractAll] at h
    cases hget : idx.get_descriptor ident with
    | none =>
      simp only [hget] at h
      cases h
      exact ⟨ident, by simp, rfl, hget⟩
    | some v =>
      simp only [hget] at h
      cases hrest : (extractAll idx rest).2 with
      | error e2 =>
        simp only [hrest, Except.map] at h
        cases h
        obtain ⟨bad, hmem, he, hnone⟩ := ih hrest
        exact ⟨bad, by simp [hmem], he, hnone⟩
      | ok c => simp [hrest, Except.map] at h

/-- If some identifier of the input sequence has a failing fetch, the
extraction aborts with a lookup error. -/
theorem extractAll_fails_of_missing {Vec : Type} (idx : DescriptorIndex Vec)
    (ids : List String) (ident : String) (hmem : ident ∈ ids)
    (hnone : idx.get_descriptor ident = none) :
    ∃ bad ∈ ids, (extractAll idx ids).2 = .error (.lookupError bad) ∧
      idx.get_descriptor bad = none := by
  cases hres : (extractAll idx ids).2 with
  | ok corpus =>
    obtain ⟨-, -, hall⟩ := extractAll_ok idx ids corpus hres
    have := hall ident hmem
    rw [hnone] at this
    simp at this
  | error e =>
    obtain ⟨bad, hbad, he, hbnone⟩ := extractAll_error idx ids e hres
    exact ⟨bad, hbad, by rw [he], hbnone⟩

/-- A list on which `f` is everywhere defined is related pointwise to its
`filterMap` by the graph of `f`. -/
theorem forall2_filterMap_of_isSome {α β : Type} (f : α → Option β) :
    ∀ xs : List α, (∀ x ∈ xs, (f x).isSome) →
      List.Forall₂ (fun x y => f x = some y) xs (xs.filterMap f)
  | [], _ => by simp
  | x :: xs, h => by
    have hx : (f x).isSome := h x (by simp)
    obtain ⟨y, hy⟩ := Option.isSome_iff_exists.mp hx
    rw [List.filterMap_cons, hy]
    exact List.Forall₂.cons hy
      (forall2_filterMap_of_isSome f xs (fun z hz => h z (by simp [hz])))

/-- Every identifier handed to `get_descriptor` during extraction comes
from the input sequence. -/
theorem extractAll_trace_subset {Vec : Type} (idx : DescriptorIndex Vec)
    (ids : List String) :
    ∀ x ∈ (extractAll idx ids).1, x ∈ ids := by
  induction ids with
  | nil => simp [extractAll]
  | cons ident rest ih =>
    intro x hx
    simp only [extractAll] at hx
    cases hget : idx.get_descriptor ident with
    | none =>
      simp [hget] at hx
      simp [hx]
    | some v =>
      simp only [hget, List.mem_cons] at hx
      rcases hx with hx | hx
      · simp [hx]
      · exact List.mem_cons_of_mem _ (ih x hx)

/-! ## Claim theorems for the training pipeline -/

/-- C1: whenever some identifier of the run's identifier sequence has a
failing single-item fetch, the whole pipeline aborts with a
`LookupError`, the fitting engine is invoked zero times (so no partial
corpus reaches it and no fitting work happens before the failure
surfaces), and nothing is persisted. -/
theorem trainItq_extraction_failure_aborts {Vec M : Type}
    (fitF : List Vec → Except String M)
    (persistF : M → Except String Unit) (config : TrainItqConfig)
    (fs : FileSystem) (idx : DescriptorIndex Vec) (ident : String)
    (hmem : ident ∈ uuidsList config fs idx)
    (hnone : idx.get_descriptor ident = none) :
    (runTrain fitF persistF config fs idx).fitCalls = 0 ∧
      (runTrain fitF persistF config fs idx).persisted = [] ∧
      ∃ bad ∈ uuidsList config fs idx,
        (runTrain fitF persistF config fs idx).result =
          .error (.lookupError bad) ∧
        idx.get_descriptor bad = none := by
  obtain ⟨bad, hbad, herr, hbnone⟩ :=
    extractAll_fails_of_missing idx (uuidsList config fs idx) ident hmem hnone
  refine ⟨?_, ?_, bad, hbad, ?_, hbnone⟩ <;> simp [runTrain, herr]

/-- C1 witness. -/
theorem trainItq_extraction_failure_aborts_witness :
    (runTrain (M := Nat) (fun _ => .ok 0) (fun _ => .ok ())
        default_config (fun _ => none)
        (⟨["a"], fun _ => none⟩ : DescriptorIndex Nat)).fitCalls = 0 ∧
      (runTrain (M := Nat) (fun _ => .ok 0) (fun _ => .ok ())
          default_config (fun _ => none)
          (⟨["a"], fun _ => none⟩ : DescriptorIndex Nat)).persisted = [] ∧
      ∃ bad ∈ uuidsList default_config (fun _ => none)
          (⟨["a"], fun _ => none⟩ : DescriptorIndex Nat),
        (runTrain (M := Nat) (fun _ => .ok 0) (fun _ => .ok ())
            default_config (fun _ => none)
            (⟨["a"], fun _ => none⟩ : DescriptorIndex Nat)).result =
          .error (.lookupError bad) ∧
        (⟨["a"], fun _ => none⟩ : DescriptorIndex Nat).get_descriptor bad =
          none :=
  trainItq_extraction_failure_aborts (fun _ => .ok 0) (fun _ => .ok ())
    default_config (fun _ => none) ⟨["a"], fun _ => none⟩ "a"
    (by simp [uuidsList, default_config]) rfl

/-- C2: the identifier sequence is exactly the stripped lines of the
configured list file, in file order, when a list file is configured and
present; and exactly the source's full key enumeration when no list file
is configured. -/
theorem trainItq_identifier_sequence {Vec : Type} (config : TrainItqConfig)
    (fs : FileSystem) (idx : DescriptorIndex Vec) :
    (∀ p fileLines, config.uuids_list_filepath = some p → p ≠ "" →
        fs p = some fileLines →
        uuidsList config fs idx = fileLines.map pyStrip) ∧
      (config.uuids_list_filepath = none →
        uuidsList config fs idx = idx.keys) := by
  constructor
  · intro p fileLines hpath hne hfs
    have hp : p.isEmpty = false := by
      cases hp : p.isEmpty with
      | false => rfl
      | true => exact absurd ((String.isEmpty_iff p).mp hp) hne
    simp [uuidsList, hpath, hp, hfs]
  · intro hpath
    simp [uuidsList, hpath]

/-- C2 witness. -/
theorem trainItq_identifier_sequence_witness :
    uuidsList { uuids_list_filepath := some "f"
              , parallel := ⟨2, true⟩ }
        (fun p => if p = "f" then some [" a ", "b"] else none)
        (⟨["k"], fun _ => none⟩ : DescriptorIndex Nat) =
      [" a ", "b"].map pyStrip :=
  (trainItq_identifier_sequence _ _ _).1 "f" [" a ", "b"] rfl
    (by decide) rfl

/-- C3: on a successful run, `get_descriptor` is called exactly once per
identifier of the input sequence (the call trace equals the sequence),
every element of the corpus is the fetched value of its corresponding
identifier, and the corpus — as a multiset — is exactly the image of the
identifier sequence under the fetch operation. -/
theorem extraction_corpus_is_fetch_image {Vec : Type}
    (idx : DescriptorIndex Vec) (ids : List String) (corpus : List Vec)
    (h : (extractAll idx ids).2 = .ok corpus) :
    (extractAll idx ids).1 = ids ∧
      List.Forall₂ (fun i v => idx.get_descriptor i = some v) ids corpus ∧
      (corpus : Multiset Vec) = (ids.filterMap idx.get_descriptor : List Vec) := by
  obtain ⟨htrace, hcorpus, hall⟩ := extractAll_ok idx ids corpus h
  refine ⟨htrace, ?_, by rw [hcorpus]⟩
  rw [hcorpus]
  exact forall2_filterMap_of_isSome idx.get_descriptor ids hall

/-- C3 witness. -/
theorem extraction_corpus_is_fetch_image_witness :
    (extractAll (⟨["a", "b"], fun i => some (i ++ "!")⟩ :
        DescriptorIndex String) ["a", "b"]).1 = ["a", "b"] ∧
      List.Forall₂
        (fun i v => (⟨["a", "b"], fun i => some (i ++ "!")⟩ :
          DescriptorIndex String).get_descriptor i = some v)
        ["a", "b"] ["a!", "b!"] ∧
      (["a!", "b!"] : Multiset String) =
        (["a", "b"].filterMap
          (⟨["a", "b"], fun i => some (i ++ "!")⟩ :
            DescriptorIndex String).get_descriptor : List String) :=
  extraction_corpus_is_fetch_image _ ["a", "b"] ["a!", "b!"] rfl

/-- C4: a successful run exits with status 0 having persisted exactly the
fitted model; a failing run exits with a non-zero status and a diagnostic
that names the failing stage, and the stage named is the stage that
actually failed (extraction: some identifier's fetch fails; fitting: the
fitting engine rejected some corpus; persistence: the persistence
operation rejected some model). -/
theorem trainItq_process_exit_behavior {Vec M : Type}
    (fitF : List Vec → Except String M)
    (persistF : M → Except String Unit) (config : TrainItqConfig)
    (fs : FileSystem) (idx : DescriptorIndex Vec) :
    (∀ m, (runTrain fitF persistF config fs idx).result = .ok m →
        exitCode (runTrain fitF persistF config fs idx).result = 0 ∧
        (runTrain fitF persistF config fs idx).persisted = [m]) ∧
      (∀ e, (runTrain fitF persistF config fs idx).result = .error e →
        exitCode (runTrain fitF persistF config fs idx).result ≠ 0 ∧
        diagnostic e = stageName (stageOf e) ++ ": " ++ errDetail e ∧
        (stageOf e = .extraction →
          ∃ bad ∈ uuidsList config fs idx, idx.get_descriptor bad = none) ∧
        (stageOf e = .fitting → ∃ c msg, fitF c = .error msg) ∧
        (stageOf e = .persistence → ∃ m msg, persistF m = .error msg)) := by
  cases hext : (extractAll idx (uuidsList config fs idx)).2 with
  | error e0 =>
    obtain ⟨bad, hbad, he0, hbnone⟩ :=
      extractAll_error idx (uuidsList config fs idx) e0 hext
    constructor
    · intro m hm
      simp [runTrain, hext] at hm
    · intro e he
      simp only [runTrain, hext] at he ⊢
      cases he
      subst he0
      refine ⟨by simp [exitCode], rfl, fun _ => ⟨bad, hbad, hbnone⟩,
        ?_, ?_⟩ <;> intro hst <;> simp [stageOf] at hst
  | ok corpus =>
    cases hfit : fitF corpus with
    | error msg =>
      constructor
      · intro m hm
        simp [runTrain, hext, hfit] at hm
      · intro e he
        simp only [runTrain, hext, hfit] at he ⊢
        cases he
        refine ⟨by simp [exitCode], rfl, ?_, fun _ => ⟨corpus, msg, hfit⟩,
          ?_⟩ <;> intro hst <;> simp [stageOf] at hst
    | ok m0 =>
      cases hper : persistF m0 with
      | error msg =>
        constructor
        · intro m hm
          simp [runTrain, hext, hfit, hper] at hm
        · intro e he
          simp only [runTrain, hext, hfit, hper] at he ⊢
          cases he
          refine ⟨by simp [exitCode], rfl, ?_, ?_,
            fun _ => ⟨m0, msg, hper⟩⟩ <;> intro hst <;> simp [stageOf] at hst
      | ok u =>
        constructor
        · intro m hm
          simp only [runTrain, hext, hfit, hper] at hm ⊢
          cases hm
          exact ⟨rfl, rfl⟩
        · intro e he
          simp [runTrain, hext, hfit, hper] at he

/-- C4 witness. -/
theorem trainItq_process_exit_behavior_witness :
    exitCode (runTrain (M := Nat) (fun _ => .ok 7)
        (fun _ => .ok ()) default_config (fun _ => none)
        (⟨["a"], fun _ => some 1⟩ : DescriptorIndex Nat)).result = 0 ∧
      (runTrain (M := Nat) (fun _ => .ok 7) (fun _ => .ok ())
          default_config (fun _ => none)
          (⟨["a"], fun _ => some 1⟩ : DescriptorIndex Nat)).persisted =
        [7] :=
  (trainItq_process_exit_behavior (fun _ => .ok 7) (fun _ => .ok ())
      default_config (fun _ => none) ⟨["a"], fun _ => some 1⟩).1 7 rfl

/-- C5: with a fixed seed, fitting is independent of the ambient entropy
— for every choice of the deterministic linear-algebra kernels, two runs
of `fit` on identical `(corpus, k, T, seed)` inputs under arbitrary
entropy environments produce the same model (same mean, projection and
rotation) and hence identical hash codes for every probe vector; the
entropy environment can influence the result only through the rotation
initialization taken when no seed is supplied. -/
theorem itq_fit_deterministic {Vec Mat : Type} (ops : LinAlgOps Vec Mat)
    (entropy1 entropy2 : Nat → Nat) (corpus : List Vec) (k T s : Nat) :
    fit ops entropy1 corpus k T (some s) =
        fit ops entropy2 corpus k T (some s) ∧
      ∀ probe, encode ops probe (fit ops entropy1 corpus k T (some s)) =
        encode ops probe (fit ops entropy2 corpus k T (some s)) :=
  ⟨rfl, fun _ => rfl⟩

/-- C6: the worker count and the process-vs-thread flag handed to
`parallel_map` are exactly the configured `index_load_cores` and
`use_multiprocessing` values, and `default_config` sets them to 2 and
True. -/
theorem trainItq_parallel_config_passthrough (config : TrainItqConfig) :
    mainParallelMapArgs config =
        { cores := config.parallel.index_load_cores
        , use_multiprocessing := config.parallel.use_multiprocessing } ∧
      mainParallelMapArgs default_config =
        { cores := 2, use_multiprocessing := true } :=
  ⟨rfl, rfl⟩

/-- C7: when a list file is configured and present, every identifier
value handed to `get_descriptor` during extraction is exactly a stripped
line of that file — the string itself, with no parsing or conversion
applied. -/
theorem trainItq_fetch_values_are_stripped_lines {Vec : Type}
    (config : TrainItqConfig) (fs : FileSystem) (idx : DescriptorIndex Vec)
    (p : String) (fileLines : List String)
    (hpath : config.uuids_list_filepath = some p) (hne : p ≠ "")
    (hfs : fs p = some fileLines) :
    ∀ x ∈ (extractAll idx (uuidsList config fs idx)).1,
      x ∈ fileLines.map pyStrip := by
  intro x hx
  have hids := (trainItq_identifier_sequence config fs idx).1 p fileLines
    hpath hne hfs
  have := extractAll_trace_subset idx (uuidsList config fs idx) x hx
  rwa [hids] at this

/-- C7 witness. -/
theorem trainItq_fetch_values_are_stripped_lines_witness :
    "a" ∈ [" a ", "b"].map pyStrip :=
  trainItq_fetch_values_are_stripped_lines
    { uuids_list_filepath := some "f", parallel := ⟨2, true⟩ }
    (fun p => if p = "f" then some [" a ", "b"] else none)
    (⟨[], fun _ => some 0⟩ : DescriptorIndex Nat) "f" [" a ", "b"] rfl
    (by decide) rfl "a" (by decide)

/-- C8: a configured `uuids_list_filepath` that names no existing file
raises no error — the identifier sequence silently falls back to the
source's full key enumeration, and the whole training run behaves exactly
as if no list file had been configured. -/
theorem trainItq_missing_file_fallback {Vec M : Type}
    (fitF : List Vec → Except String M)
    (persistF : M → Except String Unit) (config : TrainItqConfig)
    (fs : FileSystem) (idx : DescriptorIndex Vec) (p : String)
    (hpath : config.uuids_list_filepath = some p) (hfs : fs p = none) :
    uuidsList config fs idx = idx.keys ∧
      runTrain fitF persistF config fs idx =
        runTrain fitF persistF
          { config with uuids_list_filepath := none } fs idx := by
  have h1 : uuidsList config fs idx = idx.keys := by
    simp only [uuidsList, hpath, hfs]
    cases p.isEmpty <;> simp
  have h2 : uuidsList { config with uuids_list_filepath := none } fs idx =
      idx.keys := by
    simp [uuidsList]
  refine ⟨h1, ?_⟩
  simp only [runTrain, h1, h2]

/-- C8 witness. -/
theorem trainItq_missing_file_fallback_witness :
    uuidsList { uuids_list_filepath := some "gone", parallel := ⟨2, true⟩ }
        (fun _ => none) (⟨["k"], fun _ => some 5⟩ : DescriptorIndex Nat) =
      ["k"] ∧
      runTrain (M := Nat) (fun _ => .ok 3) (fun _ => .ok ())
          { uuids_list_filepath := some "gone", parallel := ⟨2, true⟩ }
          (fun _ => none) ⟨["k"], fun _ => some 5⟩ =
        runTrain (M := Nat) (fun _ => .ok 3) (fun _ => .ok ())
          { uuids_list_filepath := none, parallel := ⟨2, true⟩ }
          (fun _ => none) ⟨["k"], fun _ => some 5⟩ :=
  trainItq_missing_file_fallback (fun _ => .ok 3) (fun _ => .ok ())
    { uuids_list_filepath := some "gone", parallel := ⟨2, true⟩ }
    (fun _ => none) ⟨["k"], fun _ => some 5⟩ "gone" rfl rfl

end SMQTK

namespace Classification

/-- C9: `__eq__` between two `ClassificationElement`s holds exactly when
their classification maps agree, an element whose `get_classification`
raises `NoClassificationError` counting as map `None` (so two unset
elements are equal); the outcome is unchanged by replacing either
element's `type_name` or `uuid`; `__hash__` agrees on any two elements
sharing `type_name` and `uuid`; and `__eq__` against any value that is
not a `ClassificationElement` is `False`. -/
theorem classificationElement_eq_semantics {U M : Type} [DecidableEq M]
    (a b : ClassificationElement U M) (h : String × U → Int) :
    (ceEq a (.elem b) = true ↔ a.classification = b.classification) ∧
      (a.classification = none → b.classification = none →
        ceEq a (.elem b) = true) ∧
      (∀ (tn : String) (u : U),
        ceEq { a with type_name := tn, uuid := u } (.elem b) =
          ceEq a (.elem b)) ∧
      (∀ (tn : String) (u : U),
        ceEq a (.elem { b with type_name := tn, uuid := u }) =
          ceEq a (.elem b)) ∧
      (a.type_name = b.type_name → a.uuid = b.uuid →
        ceHash h a = ceHash h b) ∧
      ceEq a .nonElement = false := by
  refine ⟨?_, ?_, fun tn u => rfl, fun tn u => rfl, ?_, rfl⟩
  · simp [ceEq, ceEqElem]
  · intro ha hb
    simp [ceEq, ceEqElem, ha, hb]
  · intro htn hu
    simp [ceHash, htn, hu]

/-- C9 witness. -/
theorem classificationElement_eq_semantics_witness :
    ceEq (U := Nat) (M := List (String × Int))
        ⟨"ctype", 1, none⟩ (.elem ⟨"dtype", 2, none⟩) = true :=
  (classificationElement_eq_semantics (U := Nat)
      (M := List (String × Int)) ⟨"ctype", 1, none⟩ ⟨"dtype", 2, none⟩
      (fun _ => 0)).2.1 rfl rfl

end Classification

namespace PytorchMetrics

/-- Pointwise form of the histogram-intersection summand:
`((a + b) - |a - b|) * (1/2) = min a b`. -/
theorem half_add_sub_abs (a b : ℚ) :
    ((a + b) - |a - b|) * (1 / 2) = min a b := by
  rcases le_total a b with hab | hab
  · rw [abs_of_nonpos (by linarith), min_eq_left hab]; ring
  · rw [abs_of_nonneg (by linarith), min_eq_right hab]; ring

/-- C10: for equal-shaped inputs, `his_intersection_dis` is one minus the
sum of the component-wise minimum, and both `his_intersection_dis` and
`L2_dis` are symmetric in their first two arguments (`L2_dis` for every
square-root kernel). -/
theorem pytorch_metrics_min_form_and_symmetric {n : Nat}
    (t1 t2 : Fin n → ℚ) :
    his_intersection_dis t1 t2 = 1 - ∑ i, min (t1 i) (t2 i) ∧
      his_intersection_dis t1 t2 = his_intersection_dis t2 t1 ∧
      ∀ sqrt : ℚ → ℚ, L2_dis sqrt t1 t2 = L2_dis sqrt t2 t1 := by
  have hmin : ∀ s1 s2 : Fin n → ℚ,
      his_intersection_dis s1 s2 = 1 - ∑ i, min (s1 i) (s2 i) := by
    intro s1 s2
    unfold his_intersection_dis
    rw [Finset.sum_mul]
    congr 1
    exact Finset.sum_congr rfl (fun i _ => half_add_sub_abs (s1 i) (s2 i))
  refine ⟨hmin t1 t2, ?_, ?_⟩
  · rw [hmin t1 t2, hmin t2 t1]
    congr 1
    exact Finset.sum_congr rfl (fun i _ => min_comm (t1 i) (t2 i))
  · intro sqrt
    unfold L2_dis
    congr 1
    exact Finset.sum_congr rfl (fun i _ => by ring)

end PytorchMetrics
